import Mathlib

/-!
Verification of the core logic of `source/extensions/omni.isaac.orbit/omni/isaac/orbit/sim/utils.py`:
the `apply_nested` subtree-applier decorator, the `clone` instance fan-out decorator,
and the `safe_set_attribute_on_usd_*` helpers.

The USD stage is modelled as a finite tree of prims.  Each prim carries its path string
(the value `prim.GetPath().pathString` would return), its `IsInstance()` flag, and its
children (`GetChildren()`).  Host-side effects (calls into the operation, the cloner,
semantics API, ...) are recorded in an explicit event trace so that the specification
claims about "what was invoked" can be stated and proved.
-/

/-- A USD prim, as seen by `apply_nested`: its path string, its `IsInstance()` flag,
and its list of children. -/
inductive Prim where
  | node (path : String) (isInst : Bool) (children : List Prim)
deriving Repr

/-- The path string of a prim (`prim.GetPath().pathString`). -/
def Prim.path : Prim → String
  | .node p _ _ => p

/-- The `IsInstance()` flag of a prim. -/
def Prim.isInst : Prim → Bool
  | .node _ b _ => b

/-- The children of a prim (`prim.GetChildren()`). -/
def Prim.children : Prim → List Prim
  | .node _ _ cs => cs

mutual

/-- All prims of the subtree rooted at a prim (the prim itself included). -/
def Prim.subtree : Prim → List Prim
  | .node p b cs => .node p b cs :: subtreeList cs

/-- All prims of the subtrees rooted at a list of prims. -/
def subtreeList : List Prim → List Prim
  | [] => []
  | p :: ps => p.subtree ++ subtreeList ps

end

theorem Prim.subtree_eq (p : Prim) : p.subtree = p :: subtreeList p.children := by
  cases p
  rfl

theorem subtreeList_nil : subtreeList [] = [] := rfl

theorem subtreeList_cons (p : Prim) (ps : List Prim) :
    subtreeList (p :: ps) = p.subtree ++ subtreeList ps := rfl

theorem subtreeList_append (a b : List Prim) :
    subtreeList (a ++ b) = subtreeList a ++ subtreeList b := by
  induction a with
  | nil => simp [subtreeList]
  | cons p ps ih => simp [subtreeList, ih]

/-- The path strings of a list of prims. -/
def pathsOf (l : List Prim) : List String := l.map Prim.path

/-- One step of the `apply_nested` walk, recorded in the trace:
either the per-prim operation `func` was invoked on a (non-instance) prim's path
and returned the given success flag, or the prim was an instance and was skipped. -/
inductive Event where
  | applied (p : Prim) (success : Bool)
  | skippedInstance (p : Prim)
deriving Repr

/-- The prim an event is about. -/
def Event.prim : Event → Prim
  | .applied p _ => p
  | .skippedInstance p => p

/-- Whether an event terminates descent at its prim: a successful application
(the children are not enqueued) or an instance skip (`continue`). -/
def Event.isTerminal : Event → Bool
  | .applied _ s => s
  | .skippedInstance _ => true

/-- An event in which the operation was invoked and returned `True`. -/
def isSuccessEvent : Event → Bool
  | .applied _ s => s
  | .skippedInstance _ => false

/-- The path recorded when an instanced prim is skipped, `none` otherwise. -/
def skippedPath : Event → Option String
  | .skippedInstance p => some p.path
  | .applied _ _ => none

/-- The mutable state of the `apply_nested` while-loop: `count_success`,
`instanced_prim_paths`, and the ghost trace of events. -/
structure WalkState where
  countSuccess : Nat
  instancedPrimPaths : List String
  trace : List Event
deriving Repr

/-- The while-loop of `apply_nested`'s wrapper, lines 169-184 of `sim/utils.py`:
pop the first prim of `all_prims`; if it is an instance, record its path and continue;
otherwise invoke `func` on its path; on failure append its children to `all_prims`,
on success increment `count_success`. -/
def applyNestedLoop (op : String → Bool) : List Prim → WalkState → WalkState
  | [], s => s
  | p :: rest, s =>
    if p.isInst then
      applyNestedLoop op rest
        { s with instancedPrimPaths := s.instancedPrimPaths ++ [p.path],
                 trace := s.trace ++ [Event.skippedInstance p] }
    else if op p.path then
      applyNestedLoop op rest
        { s with countSuccess := s.countSuccess + 1,
                 trace := s.trace ++ [Event.applied p true] }
    else
      applyNestedLoop op (rest ++ p.children)
        { s with trace := s.trace ++ [Event.applied p false] }
termination_by ws _ => (subtreeList ws).length
decreasing_by
  · simp [subtreeList_cons, Prim.subtree_eq]
    omega
  · simp [subtreeList_cons, Prim.subtree_eq]
    omega
  · simp [subtreeList_cons, subtreeList_append, Prim.subtree_eq]
    omega

/-- The warning `carb.log_warn` emits when no prim accepted the operation (lines 186-193):
it names the wrapped function, the root prim path, and the discovered instanced prim paths. -/
structure ZeroSuccessWarning where
  funcName : String
  primPath : String
  instancedPrimPaths : List String
deriving Repr, DecidableEq

/-- The outcome of one `apply_nested`-wrapped call. -/
structure ApplyNestedResult where
  countSuccess : Nat
  instancedPrimPaths : List String
  trace : List Event
  warning : Option ZeroSuccessWarning
deriving Repr

/-- The `apply_nested` decorator's wrapper (lines 150-195 of `sim/utils.py`).
`stage` models `stage.GetPrimAtPath` combined with the `IsValid` check: it returns the
prim at a path when a valid prim exists there.  `funcName` is `func.__name__`; `op` is
the wrapped function applied to a prim path (its further `*args, **kwargs` are fixed).
An invalid root path raises `ValueError`, modelled as `Except.error`. -/
def apply_nested (funcName : String) (op : String → Bool) (stage : String → Option Prim)
    (prim_path : String) : Except String ApplyNestedResult :=
  match stage prim_path with
  | none => .error ("Prim at path " ++ prim_path ++ " is not valid.")
  | some prim =>
    let s := applyNestedLoop op [prim] ⟨0, [], []⟩
    .ok { countSuccess := s.countSuccess
          instancedPrimPaths := s.instancedPrimPaths
          trace := s.trace
          warning :=
            if s.countSuccess = 0 then
              some ⟨funcName, prim_path, s.instancedPrimPaths⟩
            else
              none }

/-! ### Unfolding lemmas for the walk loop -/

theorem loop_nil (op : String → Bool) (s : WalkState) : applyNestedLoop op [] s = s := by
  rw [applyNestedLoop]

theorem loop_cons_inst (op : String → Bool) (p : Prim) (rest : List Prim)
    (c : Nat) (i : List String) (t : List Event) (h : p.isInst = true) :
    applyNestedLoop op (p :: rest) ⟨c, i, t⟩ =
      applyNestedLoop op rest ⟨c, i ++ [p.path], t ++ [Event.skippedInstance p]⟩ := by
  rw [applyNestedLoop]
  simp [h]

theorem loop_cons_true (op : String → Bool) (p : Prim) (rest : List Prim)
    (c : Nat) (i : List String) (t : List Event) (h : p.isInst = false) (hop : op p.path = true) :
    applyNestedLoop op (p :: rest) ⟨c, i, t⟩ =
      applyNestedLoop op rest ⟨c + 1, i, t ++ [Event.applied p true]⟩ := by
  rw [applyNestedLoop]
  simp [h, hop]

theorem loop_cons_false (op : String → Bool) (p : Prim) (rest : List Prim)
    (c : Nat) (i : List String) (t : List Event) (h : p.isInst = false) (hop : op p.path = false) :
    applyNestedLoop op (p :: rest) ⟨c, i, t⟩ =
      applyNestedLoop op (rest ++ p.children) ⟨c, i, t ++ [Event.applied p false]⟩ := by
  rw [applyNestedLoop]
  simp [h, hop]

/-- The walk state is a pure accumulator: running the loop from any state equals running it
from the empty state and appending the results. -/
theorem loop_accum (op : String → Bool) (ws : List Prim) (c : Nat) (i : List String)
    (t : List Event) :
    applyNestedLoop op ws ⟨c, i, t⟩ =
      ⟨c + (applyNestedLoop op ws ⟨0, [], []⟩).countSuccess,
       i ++ (applyNestedLoop op ws ⟨0, [], []⟩).instancedPrimPaths,
       t ++ (applyNestedLoop op ws ⟨0, [], []⟩).trace⟩ := by
  match ws with
  | [] =>
    rw [loop_nil, loop_nil]
    simp
  | p :: rest =>
    by_cases hpi : p.isInst
    · rw [loop_cons_inst op p rest c i t hpi, loop_cons_inst op p rest 0 [] [] hpi,
        loop_accum op rest c (i ++ [p.path]) (t ++ [Event.skippedInstance p]),
        loop_accum op rest 0 ([] ++ [p.path]) ([] ++ [Event.skippedInstance p])]
      simp [WalkState.mk.injEq, List.append_assoc]
    · rw [Bool.not_eq_true] at hpi
      by_cases hop : op p.path
      · rw [loop_cons_true op p rest c i t hpi hop, loop_cons_true op p rest 0 [] [] hpi hop,
          loop_accum op rest (c + 1) i (t ++ [Event.applied p true]),
          loop_accum op rest (0 + 1) [] ([] ++ [Event.applied p true])]
        simp [WalkState.mk.injEq, List.append_assoc]
        omega
      · rw [Bool.not_eq_true] at hop
        rw [loop_cons_false op p rest c i t hpi hop, loop_cons_false op p rest 0 [] [] hpi hop,
          loop_accum op (rest ++ p.children) c i (t ++ [Event.applied p false]),
          loop_accum op (rest ++ p.children) 0 [] ([] ++ [Event.applied p false])]
        simp [WalkState.mk.injEq, List.append_assoc]
termination_by (subtreeList ws).length
decreasing_by
  · simp [subtreeList_cons, Prim.subtree_eq]
    omega
  · simp [subtreeList_cons, Prim.subtree_eq]
    omega
  · simp [subtreeList_cons, Prim.subtree_eq]
    omega
  · simp [subtreeList_cons, Prim.subtree_eq]
    omega
  · simp [subtreeList_cons, subtreeList_append, Prim.subtree_eq]
    omega
  · simp [subtreeList_cons, subtreeList_append, Prim.subtree_eq]
    omega

/-- `count_success` counts exactly the trace events in which the operation returned `True`,
and `instanced_prim_paths` lists exactly (in order) the paths of the skipped instanced prims. -/
theorem loop_trace_spec (op : String → Bool) (ws : List Prim) :
    (applyNestedLoop op ws ⟨0, [], []⟩).countSuccess =
      (applyNestedLoop op ws ⟨0, [], []⟩).trace.countP isSuccessEvent ∧
    (applyNestedLoop op ws ⟨0, [], []⟩).instancedPrimPaths =
      (applyNestedLoop op ws ⟨0, [], []⟩).trace.filterMap skippedPath := by
  match ws with
  | [] =>
    rw [loop_nil]
    constructor <;> rfl
  | p :: rest =>
    by_cases hpi : p.isInst
    · rw [loop_cons_inst op p rest 0 [] [] hpi,
        loop_accum op rest 0 ([] ++ [p.path]) ([] ++ [Event.skippedInstance p])]
      have ih := loop_trace_spec op rest
      simp [List.countP_append, List.filterMap_append, isSuccessEvent, skippedPath,
        List.countP_cons, ih.1, ih.2]
    · rw [Bool.not_eq_true] at hpi
      by_cases hop : op p.path
      · rw [loop_cons_true op p rest 0 [] [] hpi hop,
          loop_accum op rest (0 + 1) [] ([] ++ [Event.applied p true])]
        have ih := loop_trace_spec op rest
        simp [List.countP_append, List.filterMap_append, isSuccessEvent, skippedPath,
          List.countP_cons, ih.1, ih.2]
        omega
      · rw [Bool.not_eq_true] at hop
        rw [loop_cons_false op p rest 0 [] [] hpi hop,
          loop_accum op (rest ++ p.children) 0 [] ([] ++ [Event.applied p false])]
        have ih := loop_trace_spec op (rest ++ p.children)
        simp [List.countP_append, List.filterMap_append, isSuccessEvent, skippedPath,
          List.countP_cons, ih.1, ih.2]
termination_by (subtreeList ws).length
decreasing_by
  all_goals simp [subtreeList_cons, subtreeList_append, Prim.subtree_eq]
  all_goals omega

/-! ### Path bookkeeping for the no-descend invariant -/

theorem pathsOf_append (a b : List Prim) : pathsOf (a ++ b) = pathsOf a ++ pathsOf b := by
  simp [pathsOf]

theorem pathsOf_subtreeList_cons (p : Prim) (ps : List Prim) :
    pathsOf (subtreeList (p :: ps)) =
      p.path :: (pathsOf (subtreeList p.children) ++ pathsOf (subtreeList ps)) := by
  rw [subtreeList_cons, Prim.subtree_eq]
  simp [pathsOf]

theorem path_mem_pathsOf {d : Prim} {l : List Prim} (h : d ∈ l) : d.path ∈ pathsOf l :=
  List.mem_map_of_mem Prim.path h

/-- Stepping past a terminal prim `p` (an instance skip or a successful application with
event `ev`, `ev.prim = p`) preserves the walk invariants with worklist `rest`. -/
theorem step_keep_hyps (p : Prim) (rest : List Prim) (t : List Event) (ev : Event)
    (hev : ev.prim = p)
    (h1 : (pathsOf (subtreeList (p :: rest))).Nodup)
    (h2 : ∀ e ∈ t, e.prim.path ∉ pathsOf (subtreeList (p :: rest)))
    (h3 : (t.map fun e => e.prim.path).Nodup)
    (h4 : ∀ e ∈ t, e.isTerminal = true → ∀ d ∈ subtreeList e.prim.children,
        (∀ e2 ∈ t, e2.prim.path ≠ d.path) ∧ d.path ∉ pathsOf (subtreeList (p :: rest))) :
    (pathsOf (subtreeList rest)).Nodup ∧
    (∀ e ∈ t ++ [ev], e.prim.path ∉ pathsOf (subtreeList rest)) ∧
    ((t ++ [ev]).map fun e => e.prim.path).Nodup ∧
    (∀ e ∈ t ++ [ev], e.isTerminal = true → ∀ d ∈ subtreeList e.prim.children,
        (∀ e2 ∈ t ++ [ev], e2.prim.path ≠ d.path) ∧ d.path ∉ pathsOf (subtreeList rest)) := by
  rw [pathsOf_subtreeList_cons] at h1 h2 h4
  obtain ⟨hpnot, hAB⟩ := List.nodup_cons.mp h1
  obtain ⟨hA, hB, hdisj⟩ := List.nodup_append.mp hAB
  have hpB : p.path ∉ pathsOf (subtreeList rest) := fun hmem =>
    hpnot (List.mem_append.mpr (Or.inr hmem))
  have hpA : p.path ∉ pathsOf (subtreeList p.children) := fun hmem =>
    hpnot (List.mem_append.mpr (Or.inl hmem))
  have h2' : ∀ e ∈ t ++ [ev], e.prim.path ∉ pathsOf (subtreeList rest) := by
    intro e he
    rcases List.mem_append.mp he with hold | hnew
    · intro hmem
      exact h2 e hold (by simp [hmem])
    · simp only [List.mem_singleton] at hnew
      subst hnew
      rw [hev]
      exact hpB
  refine ⟨hB, h2', ?_, ?_⟩
  · rw [List.map_append]
    refine List.nodup_append.mpr ⟨h3, by simp, ?_⟩
    intro x hx hx2
    simp only [List.map_cons, List.map_nil, List.mem_singleton] at hx2
    obtain ⟨e, he, hxe⟩ := List.mem_map.mp hx
    apply h2 e he
    have hxp : e.prim.path = p.path := by rw [hxe, hx2, hev]
    rw [hxp]
    exact List.mem_cons_self _ _
  · intro e he hterm d hd
    rcases List.mem_append.mp he with hold | hnew
    · obtain ⟨ha, hb⟩ := h4 e hold hterm d hd
      constructor
      · intro e2 he2
        rcases List.mem_append.mp he2 with h2old | h2new
        · exact ha e2 h2old
        · simp only [List.mem_singleton] at h2new
          subst h2new
          rw [hev]
          intro hcontra
          exact hb (by rw [← hcontra]; exact List.mem_cons_self _ _)
      · exact fun hmem => hb (by simp [hmem])
    · simp only [List.mem_singleton] at hnew
      subst hnew
      rw [hev] at hd
      have hdA : d.path ∈ pathsOf (subtreeList p.children) := path_mem_pathsOf hd
      constructor
      · intro e2 he2
        rcases List.mem_append.mp he2 with h2old | h2new
        · intro hcontra
          exact h2 e2 h2old
            (by rw [hcontra]; exact List.mem_cons.mpr (Or.inr (List.mem_append.mpr (Or.inl hdA))))
        · simp only [List.mem_singleton] at h2new
          subst h2new
          rw [hev]
          exact fun hcontra => hpA (by rw [hcontra]; exact hdA)
      · exact fun hmem => hdisj hdA hmem

/-- Stepping past a prim `p` on which the operation failed (children are enqueued)
preserves the walk invariants with worklist `rest ++ p.children`. -/
theorem step_descend_hyps (p : Prim) (rest : List Prim) (t : List Event)
    (h1 : (pathsOf (subtreeList (p :: rest))).Nodup)
    (h2 : ∀ e ∈ t, e.prim.path ∉ pathsOf (subtreeList (p :: rest)))
    (h3 : (t.map fun e => e.prim.path).Nodup)
    (h4 : ∀ e ∈ t, e.isTerminal = true → ∀ d ∈ subtreeList e.prim.children,
        (∀ e2 ∈ t, e2.prim.path ≠ d.path) ∧ d.path ∉ pathsOf (subtreeList (p :: rest))) :
    (pathsOf (subtreeList (rest ++ p.children))).Nodup ∧
    (∀ e ∈ t ++ [Event.applied p false],
      e.prim.path ∉ pathsOf (subtreeList (rest ++ p.children))) ∧
    ((t ++ [Event.applied p false]).map fun e => e.prim.path).Nodup ∧
    (∀ e ∈ t ++ [Event.applied p false], e.isTerminal = true →
      ∀ d ∈ subtreeList e.prim.children,
        (∀ e2 ∈ t ++ [Event.applied p false], e2.prim.path ≠ d.path) ∧
        d.path ∉ pathsOf (subtreeList (rest ++ p.children))) := by
  rw [pathsOf_subtreeList_cons] at h1 h2 h4
  obtain ⟨hpnot, hAB⟩ := List.nodup_cons.mp h1
  have hadd : pathsOf (subtreeList (rest ++ p.children)) =
      pathsOf (subtreeList rest) ++ pathsOf (subtreeList p.children) := by
    rw [subtreeList_append, pathsOf_append]
  have hmemBA : ∀ x, x ∈ pathsOf (subtreeList (rest ++ p.children)) ↔
      x ∈ pathsOf (subtreeList p.children) ++ pathsOf (subtreeList rest) := by
    intro x
    rw [hadd]
    simp only [List.mem_append]
    exact Or.comm
  refine ⟨?_, ?_, ?_, ?_⟩
  · rw [hadd]
    exact (List.perm_append_comm).nodup hAB
  · intro e he
    rcases List.mem_append.mp he with hold | hnew
    · intro hmem
      exact h2 e hold (List.mem_cons.mpr (Or.inr ((hmemBA _).mp hmem)))
    · simp only [List.mem_singleton] at hnew
      subst hnew
      intro hmem
      exact hpnot ((hmemBA _).mp hmem)
  · rw [List.map_append]
    refine List.nodup_append.mpr ⟨h3, by simp, ?_⟩
    intro x hx hx2
    simp only [List.map_cons, List.map_nil, List.mem_singleton] at hx2
    obtain ⟨e, he, hxe⟩ := List.mem_map.mp hx
    apply h2 e he
    have hxp : e.prim.path = p.path := by rw [hxe, hx2]; rfl
    rw [hxp]
    exact List.mem_cons_self _ _
  · intro e he hterm d hd
    rcases List.mem_append.mp he with hold | hnew
    · obtain ⟨ha, hb⟩ := h4 e hold hterm d hd
      constructor
      · intro e2 he2
        rcases List.mem_append.mp he2 with h2old | h2new
        · exact ha e2 h2old
        · simp only [List.mem_singleton] at h2new
          subst h2new
          intro hcontra
          exact hb (by rw [← hcontra]; exact List.mem_cons_self _ _)
      · intro hmem
        exact hb (List.mem_cons.mpr (Or.inr ((hmemBA _).mp hmem)))
    · simp only [List.mem_singleton] at hnew
      subst hnew
      simp [Event.isTerminal] at hterm

/-- Master invariant of the walk: if the subtree paths of the worklist are distinct and
disjoint from the trace so far, then in the final trace (a) every visited path is visited
at most once, and (b) no event touches a path lying strictly below a terminal event's prim
(a successful application or an instance skip). -/
theorem loop_master (op : String → Bool) (ws : List Prim) (c : Nat) (i : List String)
    (t : List Event)
    (h1 : (pathsOf (subtreeList ws)).Nodup)
    (h2 : ∀ e ∈ t, e.prim.path ∉ pathsOf (subtreeList ws))
    (h3 : (t.map fun e => e.prim.path).Nodup)
    (h4 : ∀ e ∈ t, e.isTerminal = true → ∀ d ∈ subtreeList e.prim.children,
        (∀ e2 ∈ t, e2.prim.path ≠ d.path) ∧ d.path ∉ pathsOf (subtreeList ws)) :
    ((applyNestedLoop op ws ⟨c, i, t⟩).trace.map fun e => e.prim.path).Nodup ∧
    ∀ e ∈ (applyNestedLoop op ws ⟨c, i, t⟩).trace, e.isTerminal = true →
      ∀ d ∈ subtreeList e.prim.children,
        ∀ e2 ∈ (applyNestedLoop op ws ⟨c, i, t⟩).trace, e2.prim.path ≠ d.path := by
  match ws with
  | [] =>
    rw [loop_nil]
    exact ⟨h3, fun e he hterm d hd e2 he2 => (h4 e he hterm d hd).1 e2 he2⟩
  | p :: rest =>
    by_cases hpi : p.isInst
    · rw [loop_cons_inst op p rest c i t hpi]
      obtain ⟨g1, g2, g3, g4⟩ := step_keep_hyps p rest t (Event.skippedInstance p) rfl h1 h2 h3 h4
      exact loop_master op rest c (i ++ [p.path]) (t ++ [Event.skippedInstance p]) g1 g2 g3 g4
    · rw [Bool.not_eq_true] at hpi
      by_cases hop : op p.path
      · rw [loop_cons_true op p rest c i t hpi hop]
        obtain ⟨g1, g2, g3, g4⟩ := step_keep_hyps p rest t (Event.applied p true) rfl h1 h2 h3 h4
        exact loop_master op rest (c + 1) i (t ++ [Event.applied p true]) g1 g2 g3 g4
      · rw [Bool.not_eq_true] at hop
        rw [loop_cons_false op p rest c i t hpi hop]
        obtain ⟨g1, g2, g3, g4⟩ := step_descend_hyps p rest t h1 h2 h3 h4
        exact loop_master op (rest ++ p.children) c i (t ++ [Event.applied p false]) g1 g2 g3 g4
termination_by (subtreeList ws).length
decreasing_by
  all_goals simp [subtreeList_cons, subtreeList_append, Prim.subtree_eq]
  all_goals omega

/-! ### The `apply_nested` wrapper: claim theorems -/

/-- On a valid root path the wrapper returns normally, with the fields produced by the walk
and the zero-success warning decided by `count_success`. -/
theorem apply_nested_ok (fn : String) (op : String → Bool) (stage : String → Option Prim)
    (prim_path : String) (root : Prim) (hst : stage prim_path = some root) :
    apply_nested fn op stage prim_path = Except.ok
      { countSuccess := (applyNestedLoop op [root] ⟨0, [], []⟩).countSuccess,
        instancedPrimPaths := (applyNestedLoop op [root] ⟨0, [], []⟩).instancedPrimPaths,
        trace := (applyNestedLoop op [root] ⟨0, [], []⟩).trace,
        warning :=
          if (applyNestedLoop op [root] ⟨0, [], []⟩).countSuccess = 0 then
            some ⟨fn, prim_path, (applyNestedLoop op [root] ⟨0, [], []⟩).instancedPrimPaths⟩
          else none } := by
  unfold apply_nested
  rw [hst]

theorem pathsOf_subtreeList_singleton (root : Prim) :
    pathsOf (subtreeList [root]) = pathsOf root.subtree := by
  rw [subtreeList_cons, subtreeList_nil]
  simp

/-- C1.  In any `apply_nested`-wrapped call on a valid root path (with the distinct prim
paths a USD stage guarantees), whenever the operation returned `True` on a prim, no event of
the walk — neither an operation invocation nor an instance skip — touches any path in that
prim's strict-descendant subtree; and the prim is counted: `count_success` is exactly the
number of `True` returns. -/
theorem apply_nested_success_prunes_descendants
    (fn : String) (op : String → Bool) (stage : String → Option Prim) (prim_path : String)
    (root : Prim) (r : ApplyNestedResult)
    (hst : stage prim_path = some root)
    (hnd : (pathsOf root.subtree).Nodup)
    (hr : apply_nested fn op stage prim_path = Except.ok r) :
    (∀ p, Event.applied p true ∈ r.trace →
      ∀ d ∈ subtreeList p.children, ∀ e ∈ r.trace, e.prim.path ≠ d.path) ∧
    r.countSuccess = r.trace.countP isSuccessEvent := by
  rw [apply_nested_ok fn op stage prim_path root hst] at hr
  injection hr with hr
  subst hr
  have h1 : (pathsOf (subtreeList [root])).Nodup := by
    rw [pathsOf_subtreeList_singleton]
    exact hnd
  have hm := loop_master op [root] 0 [] [] h1 (by simp) (by simp) (by simp)
  constructor
  · intro p hp d hd e he
    exact hm.2 (Event.applied p true) hp rfl d hd e he
  · exact (loop_trace_spec op [root]).1

/-- C2.  In any `apply_nested`-wrapped call on a valid root path (with distinct prim paths),
every instanced prim that is dequeued is never passed to the operation (no `applied` event
carries its path), its path is recorded in `instanced_prim_paths`, and no event of the walk
touches any path in its strict-descendant subtree. -/
theorem apply_nested_instanced_prims_skipped
    (fn : String) (op : String → Bool) (stage : String → Option Prim) (prim_path : String)
    (root : Prim) (r : ApplyNestedResult)
    (hst : stage prim_path = some root)
    (hnd : (pathsOf root.subtree).Nodup)
    (hr : apply_nested fn op stage prim_path = Except.ok r) :
    ∀ p, Event.skippedInstance p ∈ r.trace →
      p.path ∈ r.instancedPrimPaths ∧
      (∀ q b, Event.applied q b ∈ r.trace → q.path ≠ p.path) ∧
      (∀ d ∈ subtreeList p.children, ∀ e ∈ r.trace, e.prim.path ≠ d.path) := by
  rw [apply_nested_ok fn op stage prim_path root hst] at hr
  injection hr with hr
  subst hr
  have h1 : (pathsOf (subtreeList [root])).Nodup := by
    rw [pathsOf_subtreeList_singleton]
    exact hnd
  have hm := loop_master op [root] 0 [] [] h1 (by simp) (by simp) (by simp)
  intro p hp
  refine ⟨?_, ?_, ?_⟩
  · rw [(loop_trace_spec op [root]).2]
    exact List.mem_filterMap.mpr ⟨Event.skippedInstance p, hp, rfl⟩
  · intro q b hq hcontra
    have heq := List.inj_on_of_nodup_map hm.1 hq hp hcontra
    exact Event.noConfusion heq
  · intro d hd e he
    exact hm.2 (Event.skippedInstance p) hp rfl d hd e he

/-- C6.  On a valid root path the wrapped call returns normally (it never raises after the
validity check), and if the walk ended with `count_success = 0` the zero-success warning is
emitted, naming the wrapped function, the root prim path, and the full list of skipped
instanced prim paths. -/
theorem apply_nested_zero_success_warning
    (fn : String) (op : String → Bool) (stage : String → Option Prim) (prim_path : String)
    (root : Prim) (hst : stage prim_path = some root) :
    ∃ r, apply_nested fn op stage prim_path = Except.ok r ∧
      (r.countSuccess = 0 → r.warning = some ⟨fn, prim_path, r.instancedPrimPaths⟩) ∧
      (r.countSuccess ≠ 0 → r.warning = none) := by
  refine ⟨_, apply_nested_ok fn op stage prim_path root hst, ?_, ?_⟩
  · intro h0
    simp only at h0 ⊢
    rw [if_pos h0]
  · intro h0
    simp only at h0 ⊢
    rw [if_neg h0]

/-! ### Concrete runs of `apply_nested` for the witnesses -/

def demoAX : Prim := .node "/W/A/X" false []
def demoA : Prim := .node "/W/A" false [demoAX]
def demoBY : Prim := .node "/W/B/Y" false []
def demoB : Prim := .node "/W/B" true [demoBY]
def demoRoot : Prim := .node "/W" false [demoA, demoB]
def demoOp : String → Bool := fun s => s == "/W/A"
def demoStage : String → Option Prim := fun s => if s == "/W" then some demoRoot else none

def demoResult : ApplyNestedResult :=
  { countSuccess := 1
    instancedPrimPaths := ["/W/B"]
    trace := [Event.applied demoRoot false, Event.applied demoA true, Event.skippedInstance demoB]
    warning := none }

theorem demo_run : apply_nested "bind_visual_material" demoOp demoStage "/W" =
    Except.ok demoResult := by
  simp [apply_nested, demoStage, applyNestedLoop, demoOp, demoResult, demoRoot, demoA, demoB,
    demoAX, demoBY, Prim.isInst, Prim.path, Prim.children]

theorem apply_nested_success_prunes_descendants_witness :
    demoStage "/W" = some demoRoot ∧ (pathsOf demoRoot.subtree).Nodup ∧
    ((∀ p, Event.applied p true ∈ demoResult.trace →
        ∀ d ∈ subtreeList p.children, ∀ e ∈ demoResult.trace, e.prim.path ≠ d.path) ∧
      demoResult.countSuccess = demoResult.trace.countP isSuccessEvent) :=
  ⟨rfl, by decide,
    apply_nested_success_prunes_descendants "bind_visual_material" demoOp demoStage "/W"
      demoRoot demoResult rfl (by decide) demo_run⟩

theorem apply_nested_instanced_prims_skipped_witness :
    demoStage "/W" = some demoRoot ∧ (pathsOf demoRoot.subtree).Nodup ∧
    (∀ p, Event.skippedInstance p ∈ demoResult.trace →
      p.path ∈ demoResult.instancedPrimPaths ∧
      (∀ q b, Event.applied q b ∈ demoResult.trace → q.path ≠ p.path) ∧
      (∀ d ∈ subtreeList p.children, ∀ e ∈ demoResult.trace, e.prim.path ≠ d.path)) :=
  ⟨rfl, by decide,
    apply_nested_instanced_prims_skipped "bind_visual_material" demoOp demoStage "/W"
      demoRoot demoResult rfl (by decide) demo_run⟩

theorem apply_nested_zero_success_warning_witness :
    ∃ r, apply_nested "bind_physics_material" (fun _ => false) demoStage "/W" = Except.ok r ∧
      (r.countSuccess = 0 → r.warning = some ⟨"bind_physics_material", "/W", r.instancedPrimPaths⟩) ∧
      (r.countSuccess ≠ 0 → r.warning = none) :=
  apply_nested_zero_success_warning "bind_physics_material" (fun _ => false) demoStage "/W"
    demoRoot rfl

/-!
The `clone` decorator (instance fan-out), lines 218-285 of `sim/utils.py`.

The host stage is abstracted by `Host` (its `prim_utils.find_matching_prim_paths`); all
side-effecting host calls of the wrapper are recorded in order as `CloneEvent`s.
-/

/-- Characters allowed by the prim-path check `re.match(r"^[a-zA-Z0-9/_]+$", root_path)`:
ASCII alphanumerics, forward slash and underscore. -/
def isPrimPathChar (c : Char) : Bool :=
  (decide ('a' ≤ c) && decide (c ≤ 'z')) || (decide ('A' ≤ c) && decide (c ≤ 'Z')) ||
    (decide ('0' ≤ c) && decide (c ≤ '9')) || c == '/' || c == '_'

/-- Whether `re.match(r"^[a-zA-Z0-9/_]+$", s)` succeeds, with Python semantics:
`re.match` anchors at the start, and `$` matches at the end of the string or just before a
single trailing newline.  Hence the string matches when it is a non-empty run of
`isPrimPathChar` characters, optionally followed by exactly one final newline. -/
def pyMatchPlainPath (s : String) : Bool :=
  let cs := s.data
  let core :=
    match cs.getLast? with
    | some c => if c = '\n' then cs.dropLast else cs
    | none => cs
  !core.isEmpty && core.all isPrimPathChar

/-- `prim_path.rsplit("/", 1)` unpacked into two components: splits at the last slash.
`none` models the `ValueError` Python raises when unpacking a slash-free path. -/
def rsplitSlashAux : List Char → Option (List Char × List Char)
  | [] => none
  | c :: cs =>
    match rsplitSlashAux cs with
    | some (l, r) => some (c :: l, r)
    | none => if c = '/' then some ([], cs) else none

/-- See `rsplitSlashAux`. -/
def rsplitSlash (s : String) : Option (String × String) :=
  match rsplitSlashAux s.data with
  | some (l, r) => some (⟨l⟩, ⟨r⟩)
  | none => none

/-- Python's `str.replace(" ", "_")`: a single-character replacement, i.e. a character map. -/
def replaceSpaces (s : String) : String :=
  ⟨s.data.map fun c => if c = ' ' then '_' else c⟩

/-- The host stage interface used by the `clone` wrapper:
`prim_utils.find_matching_prim_paths`. -/
structure Host where
  findMatchingPrimPaths : String → List String

/-- The runtime value of `cfg.activate_contact_sensors`: the code accepts a `str`
(a sub-pattern), a `bool`, and raises `ValueError` on any other type (`pyOther`). -/
inductive ContactSensorsVal where
  | pyStr (s : String)
  | pyBool (b : Bool)
  | pyOther (descr : String)
deriving DecidableEq, Repr

/-- The configuration attributes the `clone` wrapper inspects.  `none` models an absent
attribute (`hasattr` false); for `semantic_tags` it also covers the value `None`, since the
code guards with `hasattr(cfg, "semantic_tags") and cfg.semantic_tags is not None`. -/
structure SpawnerCfg where
  visible : Option Bool
  semantic_tags : Option (List (String × String))
  activate_contact_sensors : Option ContactSensorsVal
  copy_from_source : Bool
deriving DecidableEq, Repr

/-- Errors raised by the `clone` wrapper: `noSlash` is the `ValueError` of unpacking
`rsplit` on a slash-free path; `unresolvedPattern` is the `RuntimeError` for a pattern with
no matching prims; `configurationError` is the `ValueError` for an unsupported
`activate_contact_sensors` type. -/
inductive CloneError where
  | noSlash
  | unresolvedPattern (root : String)
  | configurationError
deriving DecidableEq, Repr

/-- Host-side effects of the `clone` wrapper, in program order. -/
inductive CloneEvent where
  | resolveParent (pattern : String) (found : List String)
  | spawn (path : String)
  | setVisibility (visible : Bool)
  | applySemanticTag (instanceName semanticType semanticData : String)
  | resolveSensorPattern (pattern : String) (found : List String)
  | activateContactSensors (path : String)
  | cloneCall (source : String) (targets : List String) (replicatePhysics : Bool)
      (copyFromSource : Option Bool)
deriving DecidableEq, Repr

/-- Outcome of one `clone`-wrapped call: the returned prim (or the raised error) together
with the recorded host events. -/
structure CloneResult (α : Type) where
  ret : Except CloneError α
  events : List CloneEvent
deriving Repr

/-- Lines 261-268: the `activate_contact_sensors` handling.  A `str` value is resolved as a
sub-pattern of the source prim path; a `bool` selects the source prim itself or nothing;
any other type raises `ValueError`.  (The threshold argument `1.` of
`schemas.activate_contact_sensors` is a constant and is not modelled.) -/
def contactSensorStep (host : Host) (p0 : String) (cfg : SpawnerCfg) :
    Except CloneError (List CloneEvent) :=
  match cfg.activate_contact_sensors with
  | none => .ok []
  | some (.pyStr sel) =>
    let pattern := p0 ++ "/" ++ sel
    let activate_paths := host.findMatchingPrimPaths pattern
    .ok (CloneEvent.resolveSensorPattern pattern activate_paths ::
      activate_paths.map CloneEvent.activateContactSensors)
  | some (.pyBool b) => .ok (if b then [CloneEvent.activateContactSensors p0] else [])
  | some (.pyOther _) => .error .configurationError

/-- Lines 243-244: the visibility write, performed when `cfg` has a `visible` attribute. -/
def visEventsOf (cfg : SpawnerCfg) : List CloneEvent :=
  match cfg.visible with
  | some v => [CloneEvent.setVisibility v]
  | none => []

/-- Lines 246-259: the semantic-tag writes.  Each `(semantic_type, semantic_value)` pair is
sanitized by replacing spaces with underscores and applied under the instance name
`f"{semantic_type_sanitized}_{semantic_value_sanitized}"`; the type/data attributes receive
the original (unsanitized) strings. -/
def tagEventsOf (cfg : SpawnerCfg) : List CloneEvent :=
  match cfg.semantic_tags with
  | some tags =>
    tags.map fun tv =>
      CloneEvent.applySemanticTag (replaceSpaces tv.1 ++ "_" ++ replaceSpaces tv.2) tv.1 tv.2
  | none => []

/-- `prim_paths[0]`: the first resolved candidate path (the lists the wrapper builds are
never empty, so the default is never used). -/
def firstPath (pp : List String) : String := pp.headD ""

theorem firstPath_cons (x : String) (xs : List String) : firstPath (x :: xs) = x := rfl

/-- Lines 271-281: the cloner call, made only when more than one prim path was resolved;
`replicate_physics=False` in both Isaac-version branches, `copy_from_source` passed only in
the newer branch. -/
def cloneEventsOf (isaacMajorVersion : Nat) (cfg : SpawnerCfg) (prim_paths : List String) :
    List CloneEvent :=
  if 1 < prim_paths.length then
    if isaacMajorVersion ≤ 2022 then
      [CloneEvent.cloneCall (firstPath prim_paths) prim_paths.tail false none]
    else
      [CloneEvent.cloneCall (firstPath prim_paths) prim_paths.tail false
        (some cfg.copy_from_source)]
  else []

/-- Lines 241-283: everything after path resolution.  `func` is invoked once at
`prim_paths[0]` (the `spawn` event of `afterResolve`); then visibility, semantic tags and
contact sensors are applied to that first prim; finally the cloner call of `cloneEventsOf`.
This function collects the events recorded after the spawn call. -/
def postSpawnEvents (host : Host) (isaacMajorVersion : Nat) (cfg : SpawnerCfg)
    (prim_paths : List String) : List CloneEvent :=
  match contactSensorStep host (firstPath prim_paths) cfg with
  | .error _ => visEventsOf cfg ++ tagEventsOf cfg
  | .ok sensorEvents =>
    visEventsOf cfg ++ tagEventsOf cfg ++ sensorEvents ++
      cloneEventsOf isaacMajorVersion cfg prim_paths

/-- See `postSpawnEvents` for the recorded events: on a contact-sensor configuration error
the `ValueError` is raised after the spawn/visibility/semantic-tag steps have happened. -/
def afterResolve {α : Type} (host : Host) (isaacMajorVersion : Nat)
    (spawnFn : String → SpawnerCfg → α) (cfg : SpawnerCfg) (prim_paths : List String)
    (evs0 : List CloneEvent) : CloneResult α :=
  let p0 := firstPath prim_paths
  let events := evs0 ++ CloneEvent.spawn p0 ::
    postSpawnEvents host isaacMajorVersion cfg prim_paths
  match contactSensorStep host p0 cfg with
  | .error e => ⟨.error e, events⟩
  | .ok _ => ⟨.ok (spawnFn p0 cfg), events⟩

/-- The `clone` decorator's wrapper (lines 219-283): split `prim_path` at the last slash;
if the parent segment fails the plain-path regex and is non-empty, resolve it against the
stage (raising `RuntimeError` on zero matches); otherwise use it literally; then spawn,
configure, and clone via `afterResolve`. -/
def cloneWrapper {α : Type} (host : Host) (isaacMajorVersion : Nat)
    (spawnFn : String → SpawnerCfg → α) (prim_path : String) (cfg : SpawnerCfg) :
    CloneResult α :=
  match rsplitSlash prim_path with
  | none => ⟨.error .noSlash, []⟩
  | some (root_path, asset_path) =>
    let is_regex_expression := !pyMatchPlainPath root_path
    if is_regex_expression && !(root_path == "") then
      match host.findMatchingPrimPaths root_path with
      | [] => ⟨.error (.unresolvedPattern root_path), []⟩
      | m :: ms =>
        afterResolve host isaacMajorVersion spawnFn cfg
          ((m :: ms).map fun s => s ++ "/" ++ asset_path)
          [CloneEvent.resolveParent root_path (m :: ms)]
    else
      afterResolve host isaacMajorVersion spawnFn cfg [root_path ++ "/" ++ asset_path] []

/-- The list `prim_paths` of candidate spawn locations the wrapper computes
(lines 228-239), as a standalone function of host and template path. -/
def primPathCandidates (host : Host) (prim_path : String) : List String :=
  match rsplitSlash prim_path with
  | none => []
  | some (root_path, asset_path) =>
    let srcs :=
      if !pyMatchPlainPath root_path && !(root_path == "") then
        host.findMatchingPrimPaths root_path
      else
        [root_path]
    srcs.map fun s => s ++ "/" ++ asset_path

/-! ### Structure lemmas for the `clone` wrapper -/

/-- Whether an event is an invocation of the wrapped spawn function. -/
def isSpawnEvent : CloneEvent → Bool
  | .spawn _ => true
  | _ => false

/-- The target list of a cloner call, `none` for every other event. -/
def cloneCallTargets : CloneEvent → Option (List String)
  | .cloneCall _ ts _ _ => some ts
  | _ => none

theorem afterResolve_events {α : Type} (host : Host) (ver : Nat)
    (spawnFn : String → SpawnerCfg → α) (cfg : SpawnerCfg) (prim_paths : List String)
    (evs0 : List CloneEvent) :
    (afterResolve host ver spawnFn cfg prim_paths evs0).events =
      evs0 ++ CloneEvent.spawn (firstPath prim_paths) ::
        postSpawnEvents host ver cfg prim_paths := by
  simp only [afterResolve]
  split <;> rfl

theorem afterResolve_ret_ok {α : Type} (host : Host) (ver : Nat)
    (spawnFn : String → SpawnerCfg → α) (cfg : SpawnerCfg) (prim_paths : List String)
    (evs0 : List CloneEvent) (x : α)
    (h : (afterResolve host ver spawnFn cfg prim_paths evs0).ret = Except.ok x) :
    x = spawnFn (firstPath prim_paths) cfg := by
  simp only [afterResolve] at h
  revert h
  split <;> intro h <;> simp at h
  exact h.symm

theorem afterResolve_ret_config_error {α : Type} (host : Host) (ver : Nat)
    (spawnFn : String → SpawnerCfg → α) (cfg : SpawnerCfg) (prim_paths : List String)
    (evs0 : List CloneEvent) (d : String)
    (hacs : cfg.activate_contact_sensors = some (ContactSensorsVal.pyOther d)) :
    (afterResolve host ver spawnFn cfg prim_paths evs0).ret =
      Except.error CloneError.configurationError := by
  have hcs : contactSensorStep host (firstPath prim_paths) cfg =
      Except.error CloneError.configurationError := by
    simp [contactSensorStep, hacs]
  simp only [afterResolve]
  revert hcs
  split <;> intro hcs2 <;> simp_all

theorem afterResolve_ok_no_pyOther {α : Type} (host : Host) (ver : Nat)
    (spawnFn : String → SpawnerCfg → α) (cfg : SpawnerCfg) (prim_paths : List String)
    (evs0 : List CloneEvent) (x : α)
    (h : (afterResolve host ver spawnFn cfg prim_paths evs0).ret = Except.ok x) :
    ∀ d, cfg.activate_contact_sensors ≠ some (ContactSensorsVal.pyOther d) := by
  intro d hacs
  rw [afterResolve_ret_config_error host ver spawnFn cfg prim_paths evs0 d hacs] at h
  exact Except.noConfusion h

theorem visEventsOf_shape (cfg : SpawnerCfg) (e : CloneEvent) (h : e ∈ visEventsOf cfg) :
    ∃ v, e = CloneEvent.setVisibility v := by
  rcases hv : cfg.visible with _ | v <;> simp [visEventsOf, hv] at h
  exact ⟨v, h⟩

theorem tagEventsOf_shape (cfg : SpawnerCfg) (e : CloneEvent) (h : e ∈ tagEventsOf cfg) :
    ∃ a b c, e = CloneEvent.applySemanticTag a b c := by
  rcases ht : cfg.semantic_tags with _ | tg <;> simp [tagEventsOf, ht] at h
  obtain ⟨a, b, hab, he⟩ := h
  exact ⟨_, _, _, he.symm⟩

theorem sensorEvents_shape (host : Host) (p0 : String) (cfg : SpawnerCfg)
    (sens : List CloneEvent) (hcs : contactSensorStep host p0 cfg = Except.ok sens)
    (e : CloneEvent) (h : e ∈ sens) :
    (∃ pat found, e = CloneEvent.resolveSensorPattern pat found) ∨
    (∃ pth, e = CloneEvent.activateContactSensors pth) := by
  rcases hacs : cfg.activate_contact_sensors with _ | sel | b | d <;>
    simp [contactSensorStep, hacs] at hcs
  · subst hcs
    exact absurd h (List.not_mem_nil e)
  · subst hcs
    rcases List.mem_cons.mp h with he | he
    · exact Or.inl ⟨_, _, he⟩
    · obtain ⟨pth, hpth, he⟩ := List.mem_map.mp he
      exact Or.inr ⟨pth, he.symm⟩
  · subst hcs
    rcases b with _ | _
    · simp at h
    · simp at h
      exact Or.inr ⟨_, h⟩

theorem cloneEventsOf_shape (ver : Nat) (cfg : SpawnerCfg) (pp : List String)
    (e : CloneEvent) (h : e ∈ cloneEventsOf ver cfg pp) :
    ∃ cp, e = CloneEvent.cloneCall (firstPath pp) pp.tail false cp := by
  unfold cloneEventsOf at h
  split_ifs at h <;> simp at h
  · exact ⟨none, h⟩
  · exact ⟨some cfg.copy_from_source, h⟩

theorem contactSensorStep_error (host : Host) (p0 : String) (cfg : SpawnerCfg)
    (e : CloneError) (h : contactSensorStep host p0 cfg = Except.error e) :
    ∃ d, cfg.activate_contact_sensors = some (ContactSensorsVal.pyOther d) := by
  rcases hacs : cfg.activate_contact_sensors with _ | sel | b | d <;>
    simp [contactSensorStep, hacs] at h
  exact ⟨d, rfl⟩

theorem mem_postSpawnEvents (host : Host) (ver : Nat) (cfg : SpawnerCfg) (pp : List String)
    (e : CloneEvent) (h : e ∈ postSpawnEvents host ver cfg pp) :
    e ∈ visEventsOf cfg ∨ e ∈ tagEventsOf cfg ∨
    (∃ sens, contactSensorStep host (firstPath pp) cfg = Except.ok sens ∧ e ∈ sens) ∨
    e ∈ cloneEventsOf ver cfg pp := by
  unfold postSpawnEvents at h
  revert h
  split <;> intro h
  · rcases List.mem_append.mp h with h | h
    · exact Or.inl h
    · exact Or.inr (Or.inl h)
  · rename_i sens heq
    rcases List.mem_append.mp h with h | h
    · rcases List.mem_append.mp h with h | h
      · rcases List.mem_append.mp h with h | h
        · exact Or.inl h
        · exact Or.inr (Or.inl h)
      · exact Or.inr (Or.inr (Or.inl ⟨sens, heq, h⟩))
    · exact Or.inr (Or.inr (Or.inr h))

/-- Every event recorded after the spawn call is a visibility write, a semantic tag,
a sensor-pattern resolution, a sensor activation, or a cloner call with
`replicate_physics=False` at the first path targeting the remaining paths. -/
theorem postSpawn_event_shapes (host : Host) (ver : Nat) (cfg : SpawnerCfg)
    (pp : List String) (e : CloneEvent) (h : e ∈ postSpawnEvents host ver cfg pp) :
    (∃ v, e = CloneEvent.setVisibility v) ∨
    (∃ a b c, e = CloneEvent.applySemanticTag a b c) ∨
    (∃ pat found, e = CloneEvent.resolveSensorPattern pat found) ∨
    (∃ pth, e = CloneEvent.activateContactSensors pth) ∨
    (∃ cp, e = CloneEvent.cloneCall (firstPath pp) pp.tail false cp) := by
  rcases mem_postSpawnEvents host ver cfg pp e h with h | h | ⟨sens, hcs, h⟩ | h
  · exact Or.inl (visEventsOf_shape cfg e h)
  · exact Or.inr (Or.inl (tagEventsOf_shape cfg e h))
  · rcases sensorEvents_shape host (firstPath pp) cfg sens hcs e h with h2 | h2
    · exact Or.inr (Or.inr (Or.inl h2))
    · exact Or.inr (Or.inr (Or.inr (Or.inl h2)))
  · exact Or.inr (Or.inr (Or.inr (Or.inr (cloneEventsOf_shape ver cfg pp e h))))

theorem postSpawn_no_spawn (host : Host) (ver : Nat) (cfg : SpawnerCfg)
    (pp : List String) : ∀ q, CloneEvent.spawn q ∉ postSpawnEvents host ver cfg pp := by
  intro q hmem
  rcases postSpawn_event_shapes host ver cfg pp _ hmem with ⟨v, h⟩ | ⟨a, b, c, h⟩ |
    ⟨pat, found, h⟩ | ⟨pth, h⟩ | ⟨cp, h⟩ <;> exact CloneEvent.noConfusion h

theorem postSpawn_no_resolveParent (host : Host) (ver : Nat) (cfg : SpawnerCfg)
    (pp : List String) :
    ∀ pat found, CloneEvent.resolveParent pat found ∉ postSpawnEvents host ver cfg pp := by
  intro pat found hmem
  rcases postSpawn_event_shapes host ver cfg pp _ hmem with ⟨v, h⟩ | ⟨a, b, c, h⟩ |
    ⟨pat2, found2, h⟩ | ⟨pth, h⟩ | ⟨cp, h⟩ <;> exact CloneEvent.noConfusion h

theorem postSpawn_cloneCall_false (host : Host) (ver : Nat) (cfg : SpawnerCfg)
    (pp : List String) :
    ∀ src tgts rp cp, CloneEvent.cloneCall src tgts rp cp ∈ postSpawnEvents host ver cfg pp →
      rp = false := by
  intro src tgts rp cp hmem
  rcases postSpawn_event_shapes host ver cfg pp _ hmem with ⟨v, h⟩ | ⟨a, b, c, h⟩ |
    ⟨pat, found, h⟩ | ⟨pth, h⟩ | ⟨cp2, h⟩
  · exact CloneEvent.noConfusion h
  · exact CloneEvent.noConfusion h
  · exact CloneEvent.noConfusion h
  · exact CloneEvent.noConfusion h
  · injection h with h1 h2 h3 h4

theorem filterMap_clone_vis (cfg : SpawnerCfg) :
    (visEventsOf cfg).filterMap cloneCallTargets = [] := by
  rcases hv : cfg.visible with _ | v <;> simp [visEventsOf, hv, cloneCallTargets]

theorem filterMap_clone_tags (cfg : SpawnerCfg) :
    (tagEventsOf cfg).filterMap cloneCallTargets = [] := by
  rcases ht : cfg.semantic_tags with _ | tg <;>
    simp [tagEventsOf, ht, cloneCallTargets, List.filterMap_map, Function.comp]

theorem filterMap_clone_sens (host : Host) (p0 : String) (cfg : SpawnerCfg)
    (sens : List CloneEvent) (hcs : contactSensorStep host p0 cfg = Except.ok sens) :
    sens.filterMap cloneCallTargets = [] := by
  rw [List.filterMap_eq_nil_iff]
  intro e he
  rcases sensorEvents_shape host p0 cfg sens hcs e he with ⟨pat, found, h⟩ | ⟨pth, h⟩ <;>
    subst h <;> rfl

theorem filterMap_clone_cloneEventsOf (ver : Nat) (cfg : SpawnerCfg) (pp : List String) :
    (cloneEventsOf ver cfg pp).filterMap cloneCallTargets =
      if 1 < pp.length then [pp.tail] else [] := by
  unfold cloneEventsOf
  split_ifs <;> simp [cloneCallTargets]

theorem postSpawn_filterMap_clone (host : Host) (ver : Nat) (cfg : SpawnerCfg)
    (pp : List String)
    (hno : ∀ d, cfg.activate_contact_sensors ≠ some (ContactSensorsVal.pyOther d)) :
    (postSpawnEvents host ver cfg pp).filterMap cloneCallTargets =
      if 1 < pp.length then [pp.tail] else [] := by
  unfold postSpawnEvents
  split
  · rename_i e heq
    obtain ⟨d, hacs⟩ := contactSensorStep_error host (firstPath pp) cfg e heq
    exact absurd hacs (hno d)
  · rename_i sens heq
    rw [List.filterMap_append, List.filterMap_append, List.filterMap_append,
      filterMap_clone_vis, filterMap_clone_tags,
      filterMap_clone_sens host (firstPath pp) cfg sens heq,
      filterMap_clone_cloneEventsOf]
    simp

theorem postSpawn_mem_tag (host : Host) (ver : Nat) (cfg : SpawnerCfg) (pp : List String)
    (tags : List (String × String)) (tv : String × String)
    (htags : cfg.semantic_tags = some tags) (hmem : tv ∈ tags) :
    CloneEvent.applySemanticTag (replaceSpaces tv.1 ++ "_" ++ replaceSpaces tv.2) tv.1 tv.2 ∈
      postSpawnEvents host ver cfg pp := by
  have hx : CloneEvent.applySemanticTag (replaceSpaces tv.1 ++ "_" ++ replaceSpaces tv.2)
      tv.1 tv.2 ∈ tagEventsOf cfg := by
    simp only [tagEventsOf, htags]
    exact List.mem_map_of_mem _ hmem
  unfold postSpawnEvents
  split
  · exact List.mem_append.mpr (Or.inr hx)
  · exact List.mem_append.mpr (Or.inl (List.mem_append.mpr
      (Or.inl (List.mem_append.mpr (Or.inr hx)))))

theorem postSpawn_filter_spawn (host : Host) (ver : Nat) (cfg : SpawnerCfg)
    (pp : List String) : (postSpawnEvents host ver cfg pp).filter isSpawnEvent = [] := by
  rw [List.filter_eq_nil_iff]
  intro e he
  rcases postSpawn_event_shapes host ver cfg pp e he with ⟨v, h⟩ | ⟨a, b, c, h⟩ |
    ⟨pat, found, h⟩ | ⟨pth, h⟩ | ⟨cp, h⟩ <;> subst h <;> simp [isSpawnEvent]

/-- Case analysis of one `clone`-wrapped call: either it fails before spawning (slash-free
path, or a pattern with zero matches) with no event recorded and no candidate path, or the
candidate paths are non-empty and the call is `afterResolve` on them, with the resolution
event as prefix exactly when the parent was treated as a pattern. -/
theorem cloneWrapper_shape {α : Type} (host : Host) (ver : Nat)
    (spawnFn : String → SpawnerCfg → α) (prim_path : String) (cfg : SpawnerCfg) :
    ((cloneWrapper host ver spawnFn prim_path cfg).events = [] ∧
      (∀ x, (cloneWrapper host ver spawnFn prim_path cfg).ret ≠ Except.ok x) ∧
      primPathCandidates host prim_path = []) ∨
    (primPathCandidates host prim_path ≠ [] ∧
      ∃ evs0, (evs0 = [] ∨ ∃ rt found, evs0 = [CloneEvent.resolveParent rt found]) ∧
        cloneWrapper host ver spawnFn prim_path cfg =
          afterResolve host ver spawnFn cfg (primPathCandidates host prim_path) evs0) := by
  rcases hsplit : rsplitSlash prim_path with _ | ⟨root, leaf⟩
  · left
    refine ⟨by simp [cloneWrapper, hsplit], ?_, by simp [primPathCandidates, hsplit]⟩
    intro x h
    simp [cloneWrapper, hsplit] at h
  · by_cases hcond : (!pyMatchPlainPath root && !(root == "")) = true
    · rcases hms : host.findMatchingPrimPaths root with _ | ⟨m, ms⟩
      · left
        refine ⟨by simp [cloneWrapper, hsplit, hcond, hms], ?_,
          by simp [primPathCandidates, hsplit, hcond, hms]⟩
        intro x h
        simp [cloneWrapper, hsplit, hcond, hms] at h
      · right
        refine ⟨by simp [primPathCandidates, hsplit, hcond, hms],
          [CloneEvent.resolveParent root (m :: ms)], Or.inr ⟨root, m :: ms, rfl⟩, ?_⟩
        simp [cloneWrapper, primPathCandidates, hsplit, hcond, hms]
    · rw [Bool.not_eq_true] at hcond
      right
      refine ⟨by simp [primPathCandidates, hsplit, hcond], [], Or.inl rfl, ?_⟩
      simp [cloneWrapper, primPathCandidates, hsplit, hcond]

/-! ### The `clone` wrapper: claim theorems -/

/-- C3.  Every `clone`-wrapped call that returns normally resolved a non-empty list of
candidate paths; the spawn function was invoked exactly once, at the first candidate; the
cloner was invoked if and only if more than one candidate was resolved, and then exactly
with the remaining candidates as targets; and the returned value is the prim spawned at
the first candidate. -/
theorem clone_spawn_once_and_fanout {α : Type} (host : Host) (ver : Nat)
    (spawnFn : String → SpawnerCfg → α) (prim_path : String) (cfg : SpawnerCfg)
    (prim : α) (evs : List CloneEvent)
    (h : cloneWrapper host ver spawnFn prim_path cfg = ⟨Except.ok prim, evs⟩) :
    primPathCandidates host prim_path ≠ [] ∧
    evs.filter isSpawnEvent =
      [CloneEvent.spawn (firstPath (primPathCandidates host prim_path))] ∧
    prim = spawnFn (firstPath (primPathCandidates host prim_path)) cfg ∧
    evs.filterMap cloneCallTargets =
      (if 1 < (primPathCandidates host prim_path).length
       then [(primPathCandidates host prim_path).tail] else []) := by
  rcases cloneWrapper_shape host ver spawnFn prim_path cfg with ⟨he, hno, _⟩ |
    ⟨hne, evs0, hevs0, heq⟩
  · exact absurd (by rw [h]) (hno prim)
  · rw [heq] at h
    have hret : (afterResolve host ver spawnFn cfg (primPathCandidates host prim_path)
        evs0).ret = Except.ok prim := by rw [h]
    have hev : evs0 ++ CloneEvent.spawn (firstPath (primPathCandidates host prim_path)) ::
        postSpawnEvents host ver cfg (primPathCandidates host prim_path) = evs := by
      rw [← afterResolve_events host ver spawnFn cfg (primPathCandidates host prim_path)
        evs0, h]
    have hfilter0 : evs0.filter isSpawnEvent = [] := by
      rcases hevs0 with h0 | ⟨rt, found, h0⟩ <;> subst h0 <;> simp [isSpawnEvent]
    have hfm0 : evs0.filterMap cloneCallTargets = [] := by
      rcases hevs0 with h0 | ⟨rt, found, h0⟩ <;> subst h0 <;> simp [cloneCallTargets]
    refine ⟨hne, ?_, afterResolve_ret_ok host ver spawnFn cfg _ evs0 prim hret, ?_⟩
    · rw [← hev, List.filter_append, hfilter0, List.filter_cons]
      simp [isSpawnEvent, postSpawn_filter_spawn]
    · rw [← hev, List.filterMap_append, hfm0, List.filterMap_cons]
      have hno2 := afterResolve_ok_no_pyOther host ver spawnFn cfg _ evs0 prim hret
      simp [cloneCallTargets, postSpawn_filterMap_clone host ver cfg _ hno2]

/-- C4.  When the parent segment is a pattern (fails the plain-path check, non-empty) and
the host resolves it to zero matching paths, the call fails with the unresolved-pattern
`RuntimeError` and the spawn function is never invoked. -/
theorem clone_unresolved_pattern_error {α : Type} (host : Host) (ver : Nat)
    (spawnFn : String → SpawnerCfg → α) (prim_path : String) (cfg : SpawnerCfg)
    (root leaf : String)
    (hsplit : rsplitSlash prim_path = some (root, leaf))
    (hpat : pyMatchPlainPath root = false) (hne : root ≠ "")
    (hms : host.findMatchingPrimPaths root = []) :
    (cloneWrapper host ver spawnFn prim_path cfg).ret =
      Except.error (CloneError.unresolvedPattern root) ∧
    ∀ q, CloneEvent.spawn q ∉ (cloneWrapper host ver spawnFn prim_path cfg).events := by
  have hcond : (!pyMatchPlainPath root && !(root == "")) = true := by
    simp [hpat, hne]
  constructor
  · simp [cloneWrapper, hsplit, hcond, hms]
  · intro q
    simp [cloneWrapper, hsplit, hcond, hms]

/-- C9.  When the configuration carries an `activate_contact_sensors` value that is neither
a boolean nor a string and the call reaches the configuration step (its candidate list is
non-empty), it fails with the `ValueError` modelled as `configurationError`. -/
theorem clone_contact_sensor_type_error {α : Type} (host : Host) (ver : Nat)
    (spawnFn : String → SpawnerCfg → α) (prim_path : String) (cfg : SpawnerCfg)
    (d : String)
    (hsel : cfg.activate_contact_sensors = some (ContactSensorsVal.pyOther d))
    (hc : primPathCandidates host prim_path ≠ []) :
    (cloneWrapper host ver spawnFn prim_path cfg).ret =
      Except.error CloneError.configurationError := by
  rcases cloneWrapper_shape host ver spawnFn prim_path cfg with ⟨_, _, hcand⟩ |
    ⟨_, evs0, _, heq⟩
  · exact absurd hcand hc
  · rw [heq]
    exact afterResolve_ret_config_error host ver spawnFn cfg _ evs0 d hsel

/-- C8.  Every cloner invocation recorded in any `clone`-wrapped call — under either
Isaac-version branch — has physics replication disabled (`replicate_physics=False`). -/
theorem clone_replicate_physics_disabled {α : Type} (host : Host) (ver : Nat)
    (spawnFn : String → SpawnerCfg → α) (prim_path : String) (cfg : SpawnerCfg)
    (res : Except CloneError α) (evs : List CloneEvent)
    (src : String) (tgts : List String) (rp : Bool) (cp : Option Bool)
    (h : cloneWrapper host ver spawnFn prim_path cfg = ⟨res, evs⟩)
    (he : CloneEvent.cloneCall src tgts rp cp ∈ evs) :
    rp = false := by
  rcases cloneWrapper_shape host ver spawnFn prim_path cfg with ⟨hev0, _, _⟩ |
    ⟨_, evs0, hevs0, heq⟩
  · rw [h] at hev0
    rw [show evs = [] from hev0] at he
    exact absurd he (List.not_mem_nil _)
  · rw [heq] at h
    have hev : evs0 ++ CloneEvent.spawn (firstPath (primPathCandidates host prim_path)) ::
        postSpawnEvents host ver cfg (primPathCandidates host prim_path) = evs := by
      rw [← afterResolve_events host ver spawnFn cfg (primPathCandidates host prim_path)
        evs0, h]
    rw [← hev] at he
    rcases List.mem_append.mp he with h1 | h1
    · rcases hevs0 with h0 | ⟨rt, found, h0⟩ <;> subst h0 <;> simp at h1
    · rcases List.mem_cons.mp h1 with h2 | h2
      · exact CloneEvent.noConfusion h2
      · exact postSpawn_cloneCall_false host ver cfg _ src tgts rp cp h2

/-- C7.  Every semantic `(type, value)` pair of the configuration is applied on the spawned
prim under the instance name obtained by replacing spaces with underscores in both
components and joining them with an underscore; in particular `("object type", "soda can")`
is stored under the key `"object_type_soda_can"`. -/
theorem clone_semantic_tag_sanitized :
    (∀ (α : Type) (host : Host) (ver : Nat) (spawnFn : String → SpawnerCfg → α)
      (prim_path : String) (cfg : SpawnerCfg) (prim : α) (evs : List CloneEvent)
      (tags : List (String × String)) (tv : String × String),
      cloneWrapper host ver spawnFn prim_path cfg = ⟨Except.ok prim, evs⟩ →
      cfg.semantic_tags = some tags → tv ∈ tags →
      CloneEvent.applySemanticTag (replaceSpaces tv.1 ++ "_" ++ replaceSpaces tv.2)
        tv.1 tv.2 ∈ evs) ∧
    replaceSpaces "object type" ++ "_" ++ replaceSpaces "soda can" =
      "object_type_soda_can" := by
  constructor
  · intro α host ver spawnFn prim_path cfg prim evs tags tv h htags hmem
    rcases cloneWrapper_shape host ver spawnFn prim_path cfg with ⟨_, hno, _⟩ |
      ⟨_, evs0, _, heq⟩
    · exact absurd (by rw [h]) (hno prim)
    · rw [heq] at h
      have hev : evs0 ++ CloneEvent.spawn (firstPath (primPathCandidates host prim_path)) ::
          postSpawnEvents host ver cfg (primPathCandidates host prim_path) = evs := by
        rw [← afterResolve_events host ver spawnFn cfg (primPathCandidates host prim_path)
          evs0, h]
      rw [← hev]
      exact List.mem_append.mpr (Or.inr (List.mem_cons.mpr (Or.inr
        (postSpawn_mem_tag host ver cfg _ tags tv htags hmem))))
  · rfl

/-- Whether a string contains a character outside the restricted
alphanumeric/underscore/slash set. -/
def containsNonPathChar (s : String) : Bool := !s.data.all isPrimPathChar

/-- Host used by the C5 counterexample: it does have a match for the parent `"A\n"`,
so resolution, were it performed, would be observable. -/
def hostNl : Host := ⟨fun s => if s = "A\n" then ["/Z"] else []⟩

/-- Configuration with no optional attribute set. -/
def cfgEmpty : SpawnerCfg := ⟨none, none, none, false⟩

/-- C5, counterexample.  The parent segment `"A\n"` contains a character (the newline)
outside the alphanumeric/underscore/slash set, so per the claim it should be treated as a
pattern and resolved; but Python's `$` also matches just before a single trailing newline,
so `re.match(r"^[a-zA-Z0-9/_]+$", "A\n")` succeeds and the code takes the literal branch:
the call performs no resolution (no `resolveParent` event, even though the host has a match
`"/Z"` for the pattern) and spawns directly at the literal path `"A\n/B"`. -/
theorem clone_parent_newline_counterexample :
    containsNonPathChar "A\n" = true ∧
    pyMatchPlainPath "A\n" = true ∧
    (cloneWrapper hostNl 2023 (fun p _ => p) "A\n/B" cfgEmpty).ret = Except.ok "A\n/B" ∧
    (cloneWrapper hostNl 2023 (fun p _ => p) "A\n/B" cfgEmpty).events =
      [CloneEvent.spawn "A\n/B"] :=
  ⟨by decide, by decide, rfl, rfl⟩

/-- C5, amended.  The template path is split at the last slash into a parent segment and a
leaf name.  The parent is treated as a pattern and resolved against the stage if and only
if it is non-empty and fails Python's `re.match(r"^[a-zA-Z0-9/_]+$", ·)` — i.e. it contains
a character outside the alphanumeric/underscore/slash set, *except* that a single trailing
newline alone does not make it a pattern (Python's `$` also matches before it).  When
resolution happens, zero matches fail with the unresolved-pattern error and a non-empty
match list is used as the parents (a `resolveParent` event precedes everything); otherwise
the single literal parent is used as-is with no resolution step. -/
theorem clone_parent_segment_resolution {α : Type} (host : Host) (ver : Nat)
    (spawnFn : String → SpawnerCfg → α) (prim_path : String) (cfg : SpawnerCfg)
    (root leaf : String)
    (hsplit : rsplitSlash prim_path = some (root, leaf)) :
    (pyMatchPlainPath root = false ∧ root ≠ "" →
      (host.findMatchingPrimPaths root = [] →
        (cloneWrapper host ver spawnFn prim_path cfg).ret =
          Except.error (CloneError.unresolvedPattern root) ∧
        (cloneWrapper host ver spawnFn prim_path cfg).events = []) ∧
      (∀ m ms, host.findMatchingPrimPaths root = m :: ms →
        (cloneWrapper host ver spawnFn prim_path cfg).events.head? =
          some (CloneEvent.resolveParent root (m :: ms)))) ∧
    (pyMatchPlainPath root = true ∨ root = "" →
      (cloneWrapper host ver spawnFn prim_path cfg).events.head? =
        some (CloneEvent.spawn (root ++ "/" ++ leaf)) ∧
      ∀ pat found, CloneEvent.resolveParent pat found ∉
        (cloneWrapper host ver spawnFn prim_path cfg).events) := by
  constructor
  · rintro ⟨hpat, hne⟩
    have hcond : (!pyMatchPlainPath root && !(root == "")) = true := by
      simp [hpat, hne]
    constructor
    · intro hms
      constructor <;> simp [cloneWrapper, hsplit, hcond, hms]
    · intro m ms hms
      have heq : cloneWrapper host ver spawnFn prim_path cfg =
          afterResolve host ver spawnFn cfg ((m :: ms).map fun s => s ++ "/" ++ leaf)
            [CloneEvent.resolveParent root (m :: ms)] := by
        simp [cloneWrapper, hsplit, hcond, hms]
      rw [heq, afterResolve_events]
      rfl
  · intro hlit
    have hcond : (!pyMatchPlainPath root && !(root == "")) = false := by
      rcases hlit with h | h <;> simp [h]
    have heq : cloneWrapper host ver spawnFn prim_path cfg =
        afterResolve host ver spawnFn cfg [root ++ "/" ++ leaf] [] := by
      simp [cloneWrapper, hsplit, hcond]
    constructor
    · rw [heq, afterResolve_events]
      rfl
    · intro pat found hmem
      rw [heq, afterResolve_events] at hmem
      rcases List.mem_cons.mp hmem with h2 | h2
      · exact CloneEvent.noConfusion h2
      · exact postSpawn_no_resolveParent host ver cfg _ pat found h2

/-! ### Concrete runs of the `clone` wrapper for the witnesses -/

/-- A stage in which the pattern `/World/Table_[0-9]` matches exactly three prims. -/
def fanHost : Host :=
  ⟨fun s => if s = "/World/Table_[0-9]"
    then ["/World/Table_0", "/World/Table_1", "/World/Table_2"] else []⟩

def fanCfg : SpawnerCfg :=
  ⟨some true, some [("object type", "soda can")], some (ContactSensorsVal.pyBool false), false⟩

def emptyHost : Host := ⟨fun _ => []⟩

def badSensorCfg : SpawnerCfg := ⟨none, none, some (ContactSensorsVal.pyOther "int"), false⟩

theorem clone_spawn_once_and_fanout_witness :
    primPathCandidates fanHost "/World/Table_[0-9]/Bottle" ≠ [] ∧
    ((cloneWrapper fanHost 2023 (fun p _ => p) "/World/Table_[0-9]/Bottle" fanCfg).events.filter
        isSpawnEvent =
      [CloneEvent.spawn (firstPath (primPathCandidates fanHost "/World/Table_[0-9]/Bottle"))]) ∧
    "/World/Table_0/Bottle" =
      (fun (p : String) (_ : SpawnerCfg) => p)
        (firstPath (primPathCandidates fanHost "/World/Table_[0-9]/Bottle")) fanCfg ∧
    ((cloneWrapper fanHost 2023 (fun p _ => p) "/World/Table_[0-9]/Bottle" fanCfg).events.filterMap
        cloneCallTargets =
      if 1 < (primPathCandidates fanHost "/World/Table_[0-9]/Bottle").length
      then [(primPathCandidates fanHost "/World/Table_[0-9]/Bottle").tail] else []) :=
  clone_spawn_once_and_fanout fanHost 2023 (fun p _ => p) "/World/Table_[0-9]/Bottle" fanCfg
    "/World/Table_0/Bottle"
    [CloneEvent.resolveParent "/World/Table_[0-9]"
      ["/World/Table_0", "/World/Table_1", "/World/Table_2"],
     CloneEvent.spawn "/World/Table_0/Bottle",
     CloneEvent.setVisibility true,
     CloneEvent.applySemanticTag "object_type_soda_can" "object type" "soda can",
     CloneEvent.cloneCall "/World/Table_0/Bottle"
      ["/World/Table_1/Bottle", "/World/Table_2/Bottle"] false (some false)]
    rfl

theorem clone_unresolved_pattern_error_witness :
    (cloneWrapper emptyHost 2023 (fun p _ => p) "/World/Table_[0-9]/Bottle" cfgEmpty).ret =
      Except.error (CloneError.unresolvedPattern "/World/Table_[0-9]") ∧
    ∀ q, CloneEvent.spawn q ∉
      (cloneWrapper emptyHost 2023 (fun p _ => p) "/World/Table_[0-9]/Bottle" cfgEmpty).events :=
  clone_unresolved_pattern_error emptyHost 2023 (fun p _ => p) "/World/Table_[0-9]/Bottle"
    cfgEmpty "/World/Table_[0-9]" "Bottle" (by decide) (by decide) (by decide) rfl

theorem clone_contact_sensor_type_error_witness :
    (cloneWrapper fanHost 2023 (fun p _ => p) "/World/Tbl/Can" badSensorCfg).ret =
      Except.error CloneError.configurationError :=
  clone_contact_sensor_type_error fanHost 2023 (fun p _ => p) "/World/Tbl/Can" badSensorCfg
    "int" rfl (by decide)

theorem clone_replicate_physics_disabled_witness :
    (CloneEvent.cloneCall "/World/Table_0/Bottle"
        ["/World/Table_1/Bottle", "/World/Table_2/Bottle"] false (some false) ∈
      (cloneWrapper fanHost 2023 (fun p _ => p) "/World/Table_[0-9]/Bottle" fanCfg).events) ∧
    (CloneEvent.cloneCall "/World/Table_0/Bottle"
        ["/World/Table_1/Bottle", "/World/Table_2/Bottle"] false none ∈
      (cloneWrapper fanHost 2022 (fun p _ => p) "/World/Table_[0-9]/Bottle" fanCfg).events) ∧
    (false : Bool) = false ∧ (false : Bool) = false :=
  ⟨by decide, by decide,
    clone_replicate_physics_disabled fanHost 2023 (fun p _ => p) "/World/Table_[0-9]/Bottle"
      fanCfg (Except.ok "/World/Table_0/Bottle")
      (cloneWrapper fanHost 2023 (fun p _ => p) "/World/Table_[0-9]/Bottle" fanCfg).events
      "/World/Table_0/Bottle" ["/World/Table_1/Bottle", "/World/Table_2/Bottle"] false
      (some false) rfl (by decide),
    clone_replicate_physics_disabled fanHost 2022 (fun p _ => p) "/World/Table_[0-9]/Bottle"
      fanCfg (Except.ok "/World/Table_0/Bottle")
      (cloneWrapper fanHost 2022 (fun p _ => p) "/World/Table_[0-9]/Bottle" fanCfg).events
      "/World/Table_0/Bottle" ["/World/Table_1/Bottle", "/World/Table_2/Bottle"] false
      none rfl (by decide)⟩

theorem clone_semantic_tag_sanitized_witness :
    CloneEvent.applySemanticTag
        (replaceSpaces "object type" ++ "_" ++ replaceSpaces "soda can")
        "object type" "soda can" ∈
      (cloneWrapper fanHost 2023 (fun p _ => p) "/World/Table_[0-9]/Bottle" fanCfg).events :=
  clone_semantic_tag_sanitized.1 String fanHost 2023 (fun p _ => p)
    "/World/Table_[0-9]/Bottle" fanCfg "/World/Table_0/Bottle"
    (cloneWrapper fanHost 2023 (fun p _ => p) "/World/Table_[0-9]/Bottle" fanCfg).events
    [("object type", "soda can")] ("object type", "soda can") rfl rfl (by decide)

theorem clone_parent_segment_resolution_witness :
    ((pyMatchPlainPath "/World/Table_[0-9]" = false ∧ "/World/Table_[0-9]" ≠ "" →
      (fanHost.findMatchingPrimPaths "/World/Table_[0-9]" = [] →
        (cloneWrapper fanHost 2023 (fun p _ => p) "/World/Table_[0-9]/Bottle" fanCfg).ret =
          Except.error (CloneError.unresolvedPattern "/World/Table_[0-9]") ∧
        (cloneWrapper fanHost 2023 (fun p _ => p) "/World/Table_[0-9]/Bottle" fanCfg).events =
          []) ∧
      (∀ m ms, fanHost.findMatchingPrimPaths "/World/Table_[0-9]" = m :: ms →
        (cloneWrapper fanHost 2023 (fun p _ => p) "/World/Table_[0-9]/Bottle"
            fanCfg).events.head? =
          some (CloneEvent.resolveParent "/World/Table_[0-9]" (m :: ms)))) ∧
    (pyMatchPlainPath "/World/Table_[0-9]" = true ∨ "/World/Table_[0-9]" = "" →
      (cloneWrapper fanHost 2023 (fun p _ => p) "/World/Table_[0-9]/Bottle"
          fanCfg).events.head? =
        some (CloneEvent.spawn ("/World/Table_[0-9]" ++ "/" ++ "Bottle")) ∧
      ∀ pat found, CloneEvent.resolveParent pat found ∉
        (cloneWrapper fanHost 2023 (fun p _ => p) "/World/Table_[0-9]/Bottle"
          fanCfg).events)) :=
  clone_parent_segment_resolution fanHost 2023 (fun p _ => p) "/World/Table_[0-9]/Bottle"
    fanCfg "/World/Table_[0-9]" "Bottle" (by decide)

/-!
The attribute setters, lines 35-114 of `sim/utils.py`.
-/

/-- A runtime `value` argument, classified the way the `isinstance` chain of
`safe_set_attribute_on_usd_prim` classifies it: `bool`, `int`, `float`, a 3- or 2-element
tuple/list containing a float (element values abstracted; floating point itself is not
modelled), or anything else. -/
inductive PyVal where
  | pyBool (b : Bool)
  | pyInt (n : Int)
  | pyFloat
  | pyFloatSeq3
  | pyFloatSeq2
  | pyOtherVal (descr : String)
deriving DecidableEq, Repr

/-- The `Sdf.ValueTypeNames` constant chosen by the type dispatch. -/
inductive SdfType where
  | bool
  | int
  | float
  | float3
  | float2
deriving DecidableEq, Repr

/-- Observable outcome of a `safe_set_attribute_on_usd_schema` call: an immediate return
with no action, a `Create{attr}Attr().Set(value)` write, or the raised `TypeError`. -/
inductive SchemaSetOutcome where
  | noop
  | set (attrName : String) (value : PyVal)
  | typeError (attrName : String)
deriving DecidableEq, Repr

/-- `safe_set_attribute_on_usd_schema` (lines 35-69).  `hasAttr` models
`getattr(schema_api, f"Create{attr_name}Attr", None) is not None`; `camelCC` models
`to_camel_case(·, to="CC")` (defined in `omni.isaac.orbit.utils.string`, outside this
excerpt, and irrelevant to the `None` short-circuit); `value = none` models `value is
None`. -/
def safe_set_attribute_on_usd_schema (hasAttr : String → Bool) (camelCC : String → String)
    (name : String) (value : Option PyVal) (camel_case : Bool) : SchemaSetOutcome :=
  match value with
  | none => .noop
  | some v =>
    let attr_name := if camel_case then camelCC name else name
    if hasAttr attr_name then .set attr_name v else .typeError attr_name

/-- Observable outcome of a `safe_set_attribute_on_usd_prim` call: an immediate return
with no action, a `ChangePropertyCommand` with the dispatched Sdf type, or the raised
`NotImplementedError`. -/
inductive PrimSetOutcome where
  | noop
  | changeProperty (attrName : String) (sdfType : SdfType) (value : PyVal)
  | notImplementedError
deriving DecidableEq, Repr

/-- `safe_set_attribute_on_usd_prim` (lines 72-114).  `camelcC` models
`to_camel_case(·, to="cC")`; the `isinstance` chain maps the value class to an Sdf type
(`bool` is tested before `int`, as in the source, where Python's `bool` would also pass the
`int` test), and any unsupported class raises `NotImplementedError`. -/
def safe_set_attribute_on_usd_prim (camelcC : String → String) (attr_name : String)
    (value : Option PyVal) (camel_case : Bool) : PrimSetOutcome :=
  match value with
  | none => .noop
  | some v =>
    let resolved_name := if camel_case then camelcC attr_name else attr_name
    match v with
    | .pyBool _ => .changeProperty resolved_name .bool v
    | .pyInt _ => .changeProperty resolved_name .int v
    | .pyFloat => .changeProperty resolved_name .float v
    | .pyFloatSeq3 => .changeProperty resolved_name .float3 v
    | .pyFloatSeq2 => .changeProperty resolved_name .float2 v
    | .pyOtherVal _ => .notImplementedError

/-- C10.  For every attribute name and camel-case flag, calling either setter with
`value=None` returns immediately with no attribute write and no raised error. -/
theorem safe_set_attribute_none_noop :
    ∀ (hasAttr : String → Bool) (camelCC camelcC : String → String)
      (name attr_name : String) (camel_case : Bool),
      safe_set_attribute_on_usd_schema hasAttr camelCC name none camel_case =
        SchemaSetOutcome.noop ∧
      safe_set_attribute_on_usd_prim camelcC attr_name none camel_case =
        PrimSetOutcome.noop :=
  fun _ _ _ _ _ _ => ⟨rfl, rfl⟩
